import Mathlib

/-!
Verification of the personal contact/note manager (`app/entities.py`,
`app/memory.py` and friends) against its natural-language specification.

Python strings are embedded as `List Char`; Python `datetime.date` /
`datetime.datetime` values as an inductive carrying a calendar date and,
for datetimes, a seconds-of-day component; fallible constructors return
`Except PyExc _` where `PyExc` enumerates the Python exceptions the
embedded code can raise.
-/

namespace Assistant

/-- Python strings, embedded as lists of characters. -/
abbrev Str := List Char

/-- Convenience: the character list of a Lean string literal. -/
def pyStr (s : String) : Str := s.data

/-- The Python exceptions (and application exception classes) the embedded
code can raise.  `nameError n` models a `NameError` raised when the name `n`
is evaluated but is not bound in the module's namespace. -/
inductive PyExc where
  | typeError
  | nameError (missing : Str)
  | valueError (msg : Str)
  | futureDateError (msg : Str)
  | invalidDateFormatError (msg : Str)
deriving DecidableEq

instance {ε α : Type} [DecidableEq ε] [DecidableEq α] : DecidableEq (Except ε α) :=
  fun a b =>
    match a, b with
    | .ok x, .ok y => decidable_of_iff (x = y) (by simp)
    | .error x, .error y => decidable_of_iff (x = y) (by simp)
    | .ok _, .error _ => isFalse (by simp)
    | .error _, .ok _ => isFalse (by simp)

/-- Model of Python `str.strip()` on one side: drop leading whitespace. -/
def dropLeadingWs (s : Str) : Str := s.dropWhile Char.isWhitespace

/-- Model of Python `str.strip()`: remove leading and trailing whitespace.
(Whitespace is modelled by `Char.isWhitespace`.) -/
def strip (s : Str) : Str := ((s.dropWhile Char.isWhitespace).reverse.dropWhile Char.isWhitespace).reverse

/-- Model of `re.sub(r"[^\d]", "", s)` and of
`"".join(ch for ch in s if ch.isdigit())`: keep only digit characters. -/
def digitsOnly (s : Str) : Str := s.filter Char.isDigit

/-- Model of Python `str.lower()` (per-character lowercasing). -/
def lowerStr (s : Str) : Str := s.map Char.toLower

/-- Model of Python `str.casefold()`.  For the character ranges the program
manipulates, casefolding coincides with per-character lowercasing. -/
def casefold (s : Str) : Str := s.map Char.toLower

/-! ### Calendar dates (model of `datetime.date` / `datetime.datetime`) -/

/-- A calendar date: year, month, day. -/
structure Date where
  year : Nat
  month : Nat
  day : Nat
deriving DecidableEq

/-- Gregorian leap-year rule, as used by Python's `datetime` module. -/
def isLeap (y : Nat) : Bool := (y % 4 == 0 && y % 100 != 0) || y % 400 == 0

/-- Number of days in month `m` of year `y`. -/
def daysInMonth (y m : Nat) : Nat :=
  if m = 2 then (if isLeap y then 29 else 28)
  else if m = 4 ∨ m = 6 ∨ m = 9 ∨ m = 11 then 30
  else 31

/-- A date representable by Python's `datetime.date`
(`MINYEAR = 1`, `MAXYEAR = 9999`, valid month and day). -/
def Date.Valid (d : Date) : Prop :=
  1 ≤ d.year ∧ d.year ≤ 9999 ∧ 1 ≤ d.month ∧ d.month ≤ 12 ∧
    1 ≤ d.day ∧ d.day ≤ daysInMonth d.year d.month

instance (d : Date) : Decidable d.Valid := by
  unfold Date.Valid; infer_instance

/-- Days in all full years before year `y` (proleptic Gregorian). -/
def daysBeforeYear (y : Nat) : Nat :=
  365 * (y - 1) + (y - 1) / 4 - (y - 1) / 100 + (y - 1) / 400

/-- Days in the months of year `y` strictly before month `m`. -/
def daysBeforeMonth (y m : Nat) : Nat :=
  (List.range (m - 1)).foldl (fun acc i => acc + daysInMonth y (i + 1)) 0

/-- Model of `date.toordinal()`: day 1 is 0001-01-01. -/
def toOrdinal (d : Date) : Nat :=
  daysBeforeYear d.year + daysBeforeMonth d.year d.month + d.day

/-- Model of `date.weekday()`: Monday = 0 … Sunday = 6
(0001-01-01, ordinal 1, is a Monday). -/
def weekday (d : Date) : Nat := (toOrdinal d + 6) % 7

/-- The calendar day after `d`. -/
def nextDay (d : Date) : Date :=
  if d.day < daysInMonth d.year d.month then ⟨d.year, d.month, d.day + 1⟩
  else if d.month < 12 then ⟨d.year, d.month + 1, 1⟩
  else ⟨d.year + 1, 1, 1⟩

/-- Model of `d + timedelta(days = n)` for `n ≥ 0`. -/
def addDays (d : Date) : Nat → Date
  | 0 => d
  | n + 1 => nextDay (addDays d n)

/-- Ordering of `date` values (Python compares (year, month, day)
lexicographically). -/
def dateLeB (a b : Date) : Bool :=
  decide (a.year < b.year ∨ (a.year = b.year ∧
    (a.month < b.month ∨ (a.month = b.month ∧ a.day ≤ b.day))))

/-- Strict ordering of `date` values. -/
def dateLtB (a b : Date) : Bool := dateLeB a b && !(decide (a = b))

/-- A `datetime.datetime` value: a date and a seconds-of-day component. -/
abbrev DateTime := Date × Nat

/-- Strict ordering of `datetime` values. -/
def dtLtB (a b : DateTime) : Bool :=
  dateLtB a.1 b.1 || (a.1 == b.1 && decide (a.2 < b.2))

/-- A Python value of type `datetime.date` or of its subclass
`datetime.datetime`.  The program mixes the two: the `Birthday` field class
stores `datetime` objects while `AddressBook` works with `date` objects. -/
inductive PyDateVal where
  | date (d : Date)
  | datetime (d : Date) (secs : Nat)
deriving DecidableEq

/-- The date component of a `date` or `datetime` value. -/
def PyDateVal.dateOf : PyDateVal → Date
  | .date d => d
  | .datetime d _ => d

/-- Model of the `<` comparison of the `datetime` module: `date` compares
with `date`, `datetime` with `datetime`, and a mixed comparison raises
`TypeError` (CPython's `datetime.__lt__` calls `_cmperror` when the other
operand is a plain `date`, and symmetrically). -/
def pyLt : PyDateVal → PyDateVal → Except PyExc Bool
  | .date a, .date b => .ok (dateLtB a b)
  | .datetime a sa, .datetime b sb => .ok (dtLtB (a, sa) (b, sb))
  | _, _ => .error .typeError

/-- Model of the `<=` comparison of the `datetime` module; mixed
`date`/`datetime` comparisons raise `TypeError`. -/
def pyLe : PyDateVal → PyDateVal → Except PyExc Bool
  | .date a, .date b => .ok (dateLeB a b)
  | .datetime a sa, .datetime b sb =>
      .ok (dtLtB (a, sa) (b, sb) || decide ((a, sa) = (b, sb)))
  | _, _ => .error .typeError

/-- Model of `d.replace(year = y)`: keeps the `date`/`datetime` variant,
raises `ValueError` when the day does not exist in the new year
(e.g. Feb 29 mapped to a non-leap year). -/
def replaceYear (v : PyDateVal) (y : Nat) : Except PyExc PyDateVal :=
  let d := v.dateOf
  if d.day ≤ daysInMonth y d.month then
    match v with
    | .date d => .ok (.date ⟨y, d.month, d.day⟩)
    | .datetime d s => .ok (.datetime ⟨y, d.month, d.day⟩ s)
  else .error (.valueError (pyStr "day is out of range for month"))

/-! ### Fixed-format date printing and parsing
(`strftime("%d.%m.%Y")`, `strftime("%d.%m.%Y %H:%M")`, `strptime`). -/

/-- The ASCII digit character for `n < 10`. -/
def digitChar (n : Nat) : Char := Char.ofNat (48 + n)

/-- Two-digit zero-padded decimal (`%d`, `%m`, `%H`, `%M` output). -/
def fmt2 (n : Nat) : Str := [digitChar (n / 10), digitChar (n % 10)]

/-- Four-digit zero-padded decimal (`%Y` output). -/
def fmt4 (n : Nat) : Str := fmt2 (n / 100) ++ fmt2 (n % 100)

/-- Model of `strftime("%d.%m.%Y")`. -/
def strftimeDMY (d : Date) : Str :=
  fmt2 d.day ++ '.' :: fmt2 d.month ++ '.' :: fmt4 d.year

/-- Model of `strftime("%d.%m.%Y %H:%M")` (note creation timestamps). -/
def strftimeDMYHM (dt : DateTime) : Str :=
  strftimeDMY dt.1 ++ ' ' :: (fmt2 (dt.2 / 3600) ++ ':' :: fmt2 (dt.2 % 3600 / 60))

/-- Longest digit run at the front of a string, and the rest. -/
def spanDigits : Str → Str × Str
  | [] => ([], [])
  | c :: cs =>
      if c.isDigit then
        let p := spanDigits cs
        (c :: p.1, p.2)
      else ([], c :: cs)

/-- Numeric value of a digit string. -/
def digitsVal (ds : Str) : Nat := ds.foldl (fun a c => a * 10 + (c.toNat - 48)) 0

/-- Parse `D.M.Y` at the front of a string: day and month of 1–2 digits,
year of exactly 4 digits — the field widths CPython's `_strptime` regular
expressions accept for `%d`, `%m`, `%Y`.  Returns day, month, year, rest. -/
def parseDMYparts (s : Str) : Option (Nat × Nat × Nat × Str) :=
  let pd := spanDigits s
  if 1 ≤ pd.1.length ∧ pd.1.length ≤ 2 then
    match pd.2 with
    | '.' :: r2 =>
        let pm := spanDigits r2
        if 1 ≤ pm.1.length ∧ pm.1.length ≤ 2 then
          match pm.2 with
          | '.' :: r4 =>
              let py := spanDigits r4
              if py.1.length = 4 then
                some (digitsVal pd.1, digitsVal pm.1, digitsVal py.1, py.2)
              else none
          | _ => none
        else none
    | _ => none
  else none

/-- Calendar validity check applied by `datetime` construction after a
successful `strptime` match. -/
def validDMY (y m d : Nat) : Bool :=
  decide (1 ≤ y ∧ 1 ≤ m ∧ m ≤ 12 ∧ 1 ≤ d ∧ d ≤ daysInMonth y m)

/-- Model of `datetime.strptime(s, "%d.%m.%Y")`, returning the parsed date
(`none` models the `ValueError` raised on a failed parse). -/
def strptimeDMY (s : Str) : Option Date :=
  match parseDMYparts s with
  | some (d, m, y, []) => if validDMY y m d then some ⟨y, m, d⟩ else none
  | _ => none

/-- Model of `datetime.strptime(s, "%d.%m.%Y %H:%M")`. -/
def strptimeDMYHM (s : Str) : Option DateTime :=
  match parseDMYparts s with
  | some (d, m, y, ' ' :: r) =>
      let ph := spanDigits r
      if 1 ≤ ph.1.length ∧ ph.1.length ≤ 2 ∧ digitsVal ph.1 ≤ 23 then
        match ph.2 with
        | ':' :: r2 =>
            let pm := spanDigits r2
            if pm.1.length = 2 ∧ digitsVal pm.1 ≤ 59 ∧ pm.2 = [] ∧ validDMY y m d then
              some (⟨y, m, d⟩, digitsVal ph.1 * 3600 + digitsVal pm.1 * 60)
            else none
        | _ => none
      else none
  | _ => none

/-! ### Field validators (`app/entities.py`) -/

/-- `Phone._clean_and_normalize_phone` (entities.py:85-98): strip whitespace,
remove all non-digit characters, and when the result starts with `"380"` and
has more than 10 digits, drop the first two characters. -/
def clean_and_normalize_phone (phone_number : Str) : Str :=
  let p := digitsOnly (strip phone_number)
  if p.take 3 = pyStr "380" ∧ 10 < p.length then p.drop 2 else p

/-- The single-quote character, kept out of string literals. -/
def squote : Str := [Char.ofNat 39]

/-- The `ValueError` message produced by `Phone._validate_phone`
(entities.py:100-107), reporting the digit count and the value (which the
source surrounds with single quotes). -/
def phoneLengthMsg (phone : Str) : Str :=
  pyStr "Phone number must contain exactly 10 digits. Got " ++
    (toString phone.length).data ++ pyStr " digits: " ++ squote ++ phone ++ squote

/-- `Phone.__init__` (entities.py:80-83): normalize, then validate that the
result has exactly 10 digits, raising `ValueError` otherwise.  The stored
`value` is the normalized digit string. -/
def phoneInit (value : Str) : Except PyExc Str :=
  let cleaned := clean_and_normalize_phone value
  if cleaned.length = 10 then .ok cleaned
  else .error (.valueError (phoneLengthMsg cleaned))

/-- `Address.__init__` (entities.py:110-114): stores the value unchanged.
It performs no emptiness check and no trimming — the trim/empty-check code
intended for it sits unreachable after the `return` statement inside
`Notebook.sort_by_tags` (entities.py:282-287), referring to a variable
`value` that is not in scope there. -/
def addressInit (value : Str) : Except PyExc Str := .ok value

/-- The `Email` object built by `Email.__init__` (entities.py:569-572):
an empty contacts database and the validation pattern.  The constructor
takes no value parameter. -/
structure EmailObj where
  contacts_database : List Str
  pattern : Str
deriving DecidableEq

/-- Number of positional arguments accepted by `Email.__init__`
(entities.py:570: `def __init__(self):` — none besides `self`). -/
def emailInitNumArgs : Nat := 0

/-- Calling the `Email` class with a list of positional arguments: Python
raises `TypeError` when the argument count does not match `__init__`'s
parameter list. -/
def emailCall (args : List Str) : Except PyExc EmailObj :=
  if args.length = emailInitNumArgs then
    .ok { contacts_database := [],
          pattern := pyStr "^[a-zA-Z0-9._%+-]+@[a-zA-Z0-9.-]+\\.[a-zA-Z]\x7b2,\x7d$" }
  else .error .typeError

/-- `Birthday.__init__` (entities.py:322-343).  `strptime` parses the value
with format `%d.%m.%Y` (producing a `datetime` with time 00:00); a date in
the future should raise `FutureDateError`, and a parse failure should raise
`InvalidDateFormatError` — but entities.py never imports either name from
`app/exceptions.py`, so evaluating them raises `NameError` instead (and the
`NameError` from the failure branch is not a `ValueError`, hence escapes the
`except ValueError` handler). -/
def birthdayInit (value : Str) (now : DateTime) : Except PyExc PyDateVal :=
  match strptimeDMY value with
  | none => .error (.nameError (pyStr "InvalidDateFormatError"))
  | some d =>
      if dtLtB now (d, 0) then .error (.nameError (pyStr "FutureDateError"))
      else .ok (.datetime d 0)

/-! ### Notes and the notebook (`Note`, `Notebook` in `app/entities.py`) -/

/-- A note (entities.py:8-68): title, content, creation time, tags. -/
structure Note where
  title : Str
  content : Str
  created_at : DateTime
  tags : List Str
deriving DecidableEq

/-- Tag normalization used throughout `Notebook`: `str(t).strip().lower()`,
dropping entries that are blank after the strip. -/
def normTag (t : Str) : Option Str :=
  let n := lowerStr (strip t)
  if n = [] then none else some n

/-- The set `{str(t).strip().lower() for t in l if str(t).strip()}`,
modelled as a duplicate-free list. -/
def tagSet (l : List Str) : List Str := (l.filterMap normTag).dedup

/-- `len(note_tags & query_tags)` for a note: the number of distinct
normalized tags of the note that occur in the normalized query set. -/
def relevance (tag_list : List Str) (n : Note) : Nat :=
  ((tagSet n.tags).filter (fun t => decide (t ∈ tagSet tag_list))).length

/-- Sort key order used by `Notebook.sort_by_tags`
(`key=lambda x: (-x[0], x[1])`): descending match count, ties broken by
ascending (case-sensitive, code-point lexicographic) title. -/
def scoredLe (a b : Nat × Str × Note) : Prop :=
  b.1 < a.1 ∨ (a.1 = b.1 ∧ a.2.1 ≤ b.2.1)

instance : DecidableRel scoredLe := by
  unfold scoredLe; infer_instance

/-- `Notebook.sort_by_tags` (entities.py:253-281) over the notebook's list
of notes (`self._notes.values()` in insertion order). -/
def sort_by_tags (notes : List Note) (tag_list : List Str) : List Note :=
  if tag_list = [] then []
  else
    let query_tags := tagSet tag_list
    if query_tags = [] then []
    else
      let scored := notes.filterMap fun note =>
        let matchCount := relevance tag_list note
        if 0 < matchCount then some (matchCount, note.title, note) else none
      (scored.insertionSort scoredLe).map fun x => x.2.2

/-! ### Contact records (`Record` in `app/entities.py`) -/

/-- A contact record (entities.py:665-687).  `name` stands for the
`Name(name)` field's `.value` (the `Name` class itself is referenced by
`Record.__init__` but defined nowhere under the sources; the spec describes
it as a required identifying string).  `phones` holds the `.value` strings
of the stored `Phone` objects; `emails` holds `Email` objects; `addresses`
holds the `.value` strings of `Address` objects; `birthday` holds the
`datetime` stored by the `Birthday` field, if set. -/
structure Record where
  name : Str
  phones : List Str
  emails : List EmailObj
  addresses : List Str
  birthday : Option PyDateVal
deriving DecidableEq

/-- `Record.add_phone` (entities.py:691-699): validate via `Phone`,
append the new `Phone`'s value. -/
def record_add_phone (r : Record) (phone : Str) : Except PyExc Record :=
  (phoneInit phone).map fun v => { r with phones := r.phones ++ [v] }

/-- `Record.find_phone` (entities.py:701-712): reduce the argument to its
digit characters (no `"380"` stripping) and return the first stored phone
with exactly that value, or `none`. -/
def record_find_phone (r : Record) (phone : Str) : Option Str :=
  let digits := digitsOnly phone
  r.phones.find? fun v => v == digits

/-- `Record.remove_phone` (entities.py:714-725): locate via `find_phone`;
return `false` (record unchanged) when absent, otherwise remove the found
entry and return `true`. -/
def record_remove_phone (r : Record) (phone : Str) : Bool × Record :=
  match record_find_phone r phone with
  | none => (false, r)
  | some v => (true, { r with phones := r.phones.erase v })

/-- Replace the first occurrence of `target` in a list by `nv` (the in-place
mutation `target.value = new_phone_obj.value` of the object `find_phone`
returned — the first list entry holding that value). -/
def replaceFirst : List Str → Str → Str → List Str
  | [], _, _ => []
  | x :: xs, target, nv =>
      if x == target then nv :: xs else x :: replaceFirst xs target nv

/-- `Record.edit_phone` (entities.py:727-740): locate `old_phone` via
`find_phone`; if absent return `false` without touching `new_phone`;
otherwise validate `new_phone` through `Phone` (propagating its
`ValueError`) and overwrite the found slot. -/
def record_edit_phone (r : Record) (old_phone new_phone : Str) :
    Except PyExc (Bool × Record) :=
  match record_find_phone r old_phone with
  | none => .ok (false, r)
  | some v =>
      (phoneInit new_phone).map fun nv =>
        (true, { r with phones := replaceFirst r.phones v nv })

/-- `Record.add_email` (entities.py:744-752): `self.emails.append(Email(email))`.
The call `Email(email)` passes one positional argument to a zero-parameter
`__init__`, so it raises `TypeError` before anything is appended. -/
def record_add_email (r : Record) (email : Str) : Except PyExc Record :=
  (emailCall [email]).map fun obj => { r with emails := r.emails ++ [obj] }

/-- `Record.add_address` (entities.py:754-760):
`self.addresses.append(Address(address))`. -/
def record_add_address (r : Record) (address : Str) : Except PyExc Record :=
  (addressInit address).map fun v => { r with addresses := r.addresses ++ [v] }

/-- `Record.add_birthday` (entities.py:762-768): unconditionally replaces
the stored birthday with `Birthday(birthday_str)`. -/
def record_add_birthday (r : Record) (birthday_str : Str) (now : DateTime) :
    Except PyExc Record :=
  (birthdayInit birthday_str now).map fun b => { r with birthday := some b }

/-! ### The address book (`AddressBook` in `app/entities.py`) -/

/-- The address book's underlying dict (`UserDict.data`), as an
insertion-ordered association list from contact name to record. -/
abbrev Book := List (Str × Record)

/-- `AddressBook._has_name` (entities.py:483-489): case-insensitive
(casefolded) key comparison. -/
def has_name (book : Book) (name : Str) : Bool :=
  book.any fun kv => casefold kv.1 == casefold name

/-- The `ValueError` message raised by `AddressBook.add_record` on a
duplicate name (the source surrounds the name with single quotes). -/
def duplicateMsg (name : Str) : Str :=
  pyStr "Contact with name " ++ squote ++ name ++ squote ++
    pyStr " already exists."

/-- `AddressBook.add_record` (entities.py:357-369): raise on a casefold
match with an existing key, otherwise insert under the original-case name
(appended, preserving dict insertion order). -/
def add_record (book : Book) (r : Record) : Except PyExc Book :=
  if has_name book r.name then .error (.valueError (duplicateMsg r.name))
  else .ok (book ++ [(r.name, r)])

/-- `AddressBook.find` (entities.py:371-382): first casefold match wins. -/
def book_find (book : Book) (name : Str) : Option Record :=
  (book.find? fun kv => casefold kv.1 == casefold name).map Prod.snd

/-- `AddressBook.delete` (entities.py:384-396): delete the first key that
casefold-matches and report whether one was found. -/
def book_delete : Book → Str → Bool × Book
  | [], _ => (false, [])
  | kv :: rest, name =>
      if casefold kv.1 == casefold name then (true, rest)
      else
        let p := book_delete rest name
        (p.1, kv :: p.2)

/-- Address books reachable from the empty book through successful
`add_record` calls and `delete` calls. -/
inductive Reachable : Book → Prop where
  | empty : Reachable []
  | add {b : Book} {r : Record} {b' : Book} :
      Reachable b → add_record b r = .ok b' → Reachable b'
  | del {b : Book} (name : Str) :
      Reachable b → Reachable (book_delete b name).2

/-- `AddressBook._move_weekend_to_monday` (entities.py:508-522):
Saturday (+2 days) and Sunday (+1 day) are shifted to the next Monday. -/
def move_weekend_to_monday (day : Date) : Date :=
  if weekday day = 5 then addDays day 2
  else if weekday day = 6 then addDays day 1
  else day

/-- One result entry of `get_upcoming_birthdays`: the three string fields of
the dict built at entities.py:464-470. -/
structure BirthdayEntry where
  name : Str
  birthday : Str
  congratulation_date : Str
deriving DecidableEq

/-- Sort key of the final `result.sort` (entities.py:473-478): the
congratulation date reparsed with `strptime` (always succeeds on `strftime`
output; an unparseable string is mapped to ordinal 0 here), then the
casefolded name. -/
def entryLe (a b : BirthdayEntry) : Prop :=
  let ka := ((strptimeDMY a.congratulation_date).map toOrdinal).getD 0
  let kb := ((strptimeDMY b.congratulation_date).map toOrdinal).getD 0
  ka < kb ∨ (ka = kb ∧ casefold a.name ≤ casefold b.name)

instance : DecidableRel entryLe := by
  unfold entryLe; infer_instance

/-- The per-record body of the `get_upcoming_birthdays` loop
(entities.py:446-470) for a record that has a birthday `b` (a `datetime`
stored by `Birthday`).  `birthday.replace(year=...)` keeps the `datetime`
variant, so the comparison `birthday_this_year < today` is a
`datetime`-versus-`date` comparison and raises `TypeError`. -/
def upcomingEntry (today window_end : Date) (name : Str) (b : PyDateVal) :
    Except PyExc (Option BirthdayEntry) := do
  let birthday_this_year ← replaceYear b today.year
  let passed ← pyLt birthday_this_year (.date today)
  let next_birthday ←
    if passed then replaceYear b (today.year + 1) else pure birthday_this_year
  let lo ← pyLe (.date today) next_birthday
  let hi ← pyLe next_birthday (.date window_end)
  if lo && hi then
    let congratulation_date := move_weekend_to_monday next_birthday.dateOf
    pure (some { name := name,
                 birthday := strftimeDMY b.dateOf,
                 congratulation_date := strftimeDMY congratulation_date })
  else
    pure none

/-- The record loop of `get_upcoming_birthdays`, collecting entries in book
order (records without a birthday are skipped). -/
def collectEntries (today window_end : Date) : List Record →
    Except PyExc (List BirthdayEntry)
  | [] => .ok []
  | r :: rs => do
      match r.birthday with
      | none => collectEntries today window_end rs
      | some b => do
          let e ← upcomingEntry today window_end r.name b
          let rest ← collectEntries today window_end rs
          pure (match e with | none => rest | some x => x :: rest)

/-- `AddressBook.get_upcoming_birthdays` (entities.py:425-479), with
`date.today()` made an explicit `today` parameter.  The book's records are
`self.data.values()` in insertion order. -/
def get_upcoming_birthdays (book : Book) (today : Date) (days : Nat) :
    Except PyExc (List BirthdayEntry) := do
  let window_end := addDays today days
  let result ← collectEntries today window_end (book.map Prod.snd)
  pure (result.insertionSort entryLe)

/-! ### JSON persistence (modelled from the spec)

`app/memory.py` saves `address_book.to_dict()` and restores with
`AddressBook.from_dict` (and likewise `Notebook.to_dict` / `from_dict`),
but neither conversion is defined anywhere under the sources.  The
documents below follow the spec's schema: contacts as
`{"name", "phones", "emails", "addresses", "birthday": "DD.MM.YYYY" | null}`
and notes as `{"title", "content", "created_at": "DD.MM.YYYY HH:MM", "tags"}`. -/

/-- Modelled from the spec: the contact data persisted for one `Record`
(`AddressBook.to_dict` is missing from the sources).  `birthday` is the
stored birthday `datetime`; only its date part is persisted. -/
structure SpecContact where
  name : Str
  phones : List Str
  emails : List Str
  addresses : List Str
  birthday : Option DateTime
deriving DecidableEq

/-- Modelled from the spec: one element of the `"contacts"` array of the
persisted address-book document. -/
structure ContactDoc where
  name : Str
  phones : List Str
  emails : List Str
  addresses : List Str
  birthday : Option Str
deriving DecidableEq

/-- Modelled from the spec: encode one contact, formatting the birthday as
`DD.MM.YYYY` (or `null`). -/
def encodeContact (c : SpecContact) : ContactDoc :=
  { name := c.name, phones := c.phones, emails := c.emails,
    addresses := c.addresses,
    birthday := c.birthday.map fun dt => strftimeDMY dt.1 }

/-- Modelled from the spec: decode one contact, parsing the birthday with
`strptime("%d.%m.%Y")` (which yields a midnight `datetime`); a malformed
date makes the decode fail. -/
def decodeContact (doc : ContactDoc) : Option SpecContact :=
  match doc.birthday with
  | none => some { name := doc.name, phones := doc.phones,
                   emails := doc.emails, addresses := doc.addresses,
                   birthday := none }
  | some s =>
      (strptimeDMY s).map fun d =>
        { name := doc.name, phones := doc.phones, emails := doc.emails,
          addresses := doc.addresses, birthday := some (d, 0) }

/-- Modelled from the spec: `AddressBook.to_dict`, the `"contacts"` array in
book order. -/
def encodeContacts (book : List SpecContact) : List ContactDoc :=
  book.map encodeContact

/-- Modelled from the spec: `AddressBook.from_dict` over the `"contacts"`
array. -/
def decodeContacts (docs : List ContactDoc) : Option (List SpecContact) :=
  docs.mapM decodeContact

/-- Modelled from the spec: the note data persisted for one `Note`
(`Notebook.to_dict` is missing from the sources). -/
structure SpecNote where
  title : Str
  content : Str
  created_at : DateTime
  tags : List Str
deriving DecidableEq

/-- Modelled from the spec: one element of the `"notes"` array of the
persisted notebook document. -/
structure NoteDoc where
  title : Str
  content : Str
  created_at : Str
  tags : List Str
deriving DecidableEq

/-- Modelled from the spec: encode one note, formatting `created_at` as
`DD.MM.YYYY HH:MM`. -/
def encodeNote (n : SpecNote) : NoteDoc :=
  { title := n.title, content := n.content,
    created_at := strftimeDMYHM n.created_at, tags := n.tags }

/-- Modelled from the spec: decode one note, parsing `created_at` with
`strptime("%d.%m.%Y %H:%M")`. -/
def decodeNote (doc : NoteDoc) : Option SpecNote :=
  (strptimeDMYHM doc.created_at).map fun dt =>
    { title := doc.title, content := doc.content, created_at := dt,
      tags := doc.tags }

/-- Modelled from the spec: `Notebook.to_dict`, the `"notes"` array. -/
def encodeNotes (notes : List SpecNote) : List NoteDoc :=
  notes.map encodeNote

/-- Modelled from the spec: `Notebook.from_dict` over the `"notes"` array. -/
def decodeNotes (docs : List NoteDoc) : Option (List SpecNote) :=
  docs.mapM decodeNote

/-- The spec's round-trip equivalence for contacts: same name, phones,
emails and addresses, and birthday dates equal ignoring time-of-day. -/
def contactEquiv (a b : SpecContact) : Prop :=
  a.name = b.name ∧ a.phones = b.phones ∧ a.emails = b.emails ∧
    a.addresses = b.addresses ∧
    a.birthday.map Prod.fst = b.birthday.map Prod.fst

/-- The spec's round-trip equivalence for notes: same title and content,
creation time equal to the minute (the persisted format has no seconds),
and tag sets equal regardless of order. -/
def noteEquiv (a b : SpecNote) : Prop :=
  a.title = b.title ∧ a.content = b.content ∧
    a.created_at.1 = b.created_at.1 ∧
    a.created_at.2 / 60 = b.created_at.2 / 60 ∧
    a.tags.toFinset = b.tags.toFinset

/-! ### Concrete data used by the claim theorems and their witnesses -/

/-- A fresh record for the contact "Ann". -/
def recAnn0 : Record :=
  { name := pyStr "Ann", phones := [], emails := [], addresses := [],
    birthday := none }

/-- "Ann" with the birthday 15.03.1990 stored (as `Birthday` stores it:
a midnight `datetime`). -/
def recAnn : Record := { recAnn0 with birthday := some (.datetime ⟨1990, 3, 15⟩ 0) }

/-- A fresh record for the contact "John". -/
def recJohn : Record :=
  { name := pyStr "John", phones := [], emails := [], addresses := [],
    birthday := none }

/-- A fresh record named "JOHN" (differs from "John" only by case). -/
def recJOHN : Record :=
  { name := pyStr "JOHN", phones := [], emails := [], addresses := [],
    birthday := none }

/-- A fresh record for the contact "Bob". -/
def recBob : Record :=
  { name := pyStr "Bob", phones := [], emails := [], addresses := [],
    birthday := none }

/-- "Bob" after `add_phone("380501234567")`: the normalized 10-digit value. -/
def recBob380 : Record := { recBob with phones := [pyStr "0501234567"] }

/-- Note A of the spec's `sort_by_tags` example: tags x and y. -/
def noteA : Note :=
  { title := pyStr "A", content := pyStr "alpha",
    created_at := (⟨2025, 1, 1⟩, 0), tags := [pyStr "x", pyStr "y"] }

/-- Note B of the spec's `sort_by_tags` example: tag x. -/
def noteB : Note :=
  { title := pyStr "B", content := pyStr "beta",
    created_at := (⟨2025, 1, 1⟩, 0), tags := [pyStr "x"] }

/-- Note C of the spec's `sort_by_tags` example: no tags. -/
def noteC : Note :=
  { title := pyStr "C", content := pyStr "gamma",
    created_at := (⟨2025, 1, 1⟩, 0), tags := [] }

/-- A fixed "current moment" for evaluating `Birthday` construction. -/
def now2026 : DateTime := (⟨2026, 10, 12⟩, 0)

/-- A record for "Carol" holding one stored phone value. -/
def recCarol : Record :=
  { name := pyStr "Carol", phones := [pyStr "0501234567"], emails := [],
    addresses := [], birthday := none }

/-- A concrete address book holding only "John", used to instantiate the
reachable-state claims. -/
def bookJohn : Book := [(pyStr "John", recJohn)]

/-- A concrete persisted contact with a birthday, for instantiating the
round-trip claim. -/
def specAnn : SpecContact :=
  { name := pyStr "Ann", phones := [pyStr "0501234567"],
    emails := [pyStr "ann@example.com"], addresses := [pyStr "Kyiv"],
    birthday := some (⟨1990, 3, 15⟩, 0) }

/-- A concrete persisted note with two tags and a second-precision creation
time, for instantiating the round-trip claim. -/
def specNoteShopping : SpecNote :=
  { title := pyStr "Shopping", content := pyStr "milk",
    created_at := (⟨2026, 10, 12⟩, 34259), tags := [pyStr "todo", pyStr "home"] }

/-! ### Helper lemmas -/

theorem scoredLe_total : ∀ a b : Nat × Str × Note, scoredLe a b ∨ scoredLe b a := by
  intro a b
  rcases Nat.lt_trichotomy a.1 b.1 with h | h | h
  · exact Or.inr (Or.inl h)
  · rcases le_total a.2.1 b.2.1 with ht | ht
    · exact Or.inl (Or.inr ⟨h, ht⟩)
    · exact Or.inr (Or.inr ⟨h.symm, ht⟩)
  · exact Or.inl (Or.inl h)

instance : IsTotal (Nat × Str × Note) scoredLe := ⟨scoredLe_total⟩

theorem scoredLe_trans : ∀ a b c : Nat × Str × Note,
    scoredLe a b → scoredLe b c → scoredLe a c := by
  intro a b c hab hbc
  rcases hab with h1 | ⟨h1, t1⟩
  · rcases hbc with h2 | ⟨h2, _⟩
    · exact Or.inl (h2.trans h1)
    · exact Or.inl (h2 ▸ h1)
  · rcases hbc with h2 | ⟨h2, t2⟩
    · exact Or.inl (h1 ▸ h2)
    · exact Or.inr ⟨h1.trans h2, t1.trans t2⟩

instance : IsTrans (Nat × Str × Note) scoredLe := ⟨scoredLe_trans⟩

theorem digitChar_isDigit : ∀ n < 10, (digitChar n).isDigit = true := by decide

theorem digitChar_toNat : ∀ n < 10, (digitChar n).toNat = 48 + n := by decide

theorem fmt2_all_digits {n : Nat} (h : n < 100) :
    ∀ c ∈ fmt2 n, c.isDigit = true := by
  intro c hc
  have h1 : n / 10 < 10 := by omega
  have h2 : n % 10 < 10 := by omega
  simp only [fmt2, List.mem_cons, List.not_mem_nil, or_false] at hc
  rcases hc with hc | hc
  · exact hc ▸ digitChar_isDigit _ h1
  · exact hc ▸ digitChar_isDigit _ h2

theorem fmt4_all_digits {n : Nat} (h : n ≤ 9999) :
    ∀ c ∈ fmt4 n, c.isDigit = true := by
  intro c hc
  rcases List.mem_append.1 hc with hc | hc
  · exact fmt2_all_digits (by omega) c hc
  · exact fmt2_all_digits (by omega) c hc

theorem spanDigits_append (ds rest : Str) (hds : ∀ c ∈ ds, c.isDigit = true)
    (hrest : ∀ c ∈ rest.take 1, c.isDigit = false) :
    spanDigits (ds ++ rest) = (ds, rest) := by
  induction ds with
  | nil =>
      cases rest with
      | nil => rfl
      | cons c cs =>
          have : c.isDigit = false := hrest c (by simp)
          simp [spanDigits, this]
  | cons d ds ih =>
      have hd : d.isDigit = true := hds d (by simp)
      have ih' := ih fun c hc => hds c (by simp [hc])
      simp [spanDigits, hd, ih']

theorem digitsVal_go {n : Nat} (h : n < 100) (i : Nat) :
    (fmt2 n).foldl (fun a c => a * 10 + (c.toNat - 48)) i = i * 100 + n := by
  have h1 : (digitChar (n / 10)).toNat = 48 + n / 10 :=
    digitChar_toNat _ (by omega)
  have h2 : (digitChar (n % 10)).toNat = 48 + n % 10 :=
    digitChar_toNat _ (by omega)
  simp only [fmt2, List.foldl, h1, h2]
  omega

theorem digitsVal_fmt2 {n : Nat} (h : n < 100) : digitsVal (fmt2 n) = n := by
  simpa using digitsVal_go h 0

theorem digitsVal_fmt4 {n : Nat} (h : n ≤ 9999) : digitsVal (fmt4 n) = n := by
  have h1 : n / 100 < 100 := by omega
  have h2 : n % 100 < 100 := by omega
  simp only [digitsVal, fmt4, List.foldl_append]
  have e1 := digitsVal_go h1 0
  have e2 := digitsVal_go h2 ((fmt2 (n / 100)).foldl (fun a c => a * 10 + (c.toNat - 48)) 0)
  simp only [digitsVal] at e1 e2 ⊢
  rw [e2, e1]
  omega

theorem daysInMonth_le (y m : Nat) : daysInMonth y m ≤ 31 := by
  unfold daysInMonth
  split
  · split <;> omega
  · split <;> omega

theorem fmt2_length (n : Nat) : (fmt2 n).length = 2 := rfl

theorem fmt4_length (n : Nat) : (fmt4 n).length = 4 := rfl

theorem parseDMYparts_strftime (d : Date) (hd : d.Valid) (rest : Str)
    (hrest : ∀ c ∈ rest.take 1, c.isDigit = false) :
    parseDMYparts (strftimeDMY d ++ rest) =
      some (d.day, d.month, d.year, rest) := by
  obtain ⟨hy1, hy2, hm1, hm2, hd1, hd2⟩ := hd
  have hdle : d.day < 100 := by
    have := daysInMonth_le d.year d.month
    omega
  have hmle : d.month < 100 := by omega
  have e1 : strftimeDMY d ++ rest =
      fmt2 d.day ++ ('.' :: (fmt2 d.month ++ ('.' :: (fmt4 d.year ++ rest)))) := by
    simp [strftimeDMY]
  have s1 := spanDigits_append (fmt2 d.day)
    ('.' :: (fmt2 d.month ++ ('.' :: (fmt4 d.year ++ rest))))
    (fmt2_all_digits hdle) (by intro c hc; simp at hc; subst hc; decide)
  have s2 := spanDigits_append (fmt2 d.month) ('.' :: (fmt4 d.year ++ rest))
    (fmt2_all_digits hmle) (by intro c hc; simp at hc; subst hc; decide)
  have s3 := spanDigits_append (fmt4 d.year) rest (fmt4_all_digits hy2) hrest
  rw [e1]
  simp only [parseDMYparts, s1, s2, s3, fmt2_length, fmt4_length]
  norm_num
  simp [digitsVal_fmt2 hdle, digitsVal_fmt2 hmle, digitsVal_fmt4 hy2]

theorem strptime_strftime (d : Date) (hd : d.Valid) :
    strptimeDMY (strftimeDMY d) = some d := by
  have h := parseDMYparts_strftime d hd [] (by intro c hc; simp at hc)
  rw [List.append_nil] at h
  obtain ⟨hy1, hy2, hm1, hm2, hd1, hd2⟩ := hd
  have hv : validDMY d.year d.month d.day = true := by
    simp [validDMY]; omega
  simp [strptimeDMY, h, hv]

theorem strptimeHM_strftimeHM (dt : DateTime) (hd : dt.1.Valid)
    (hs : dt.2 < 86400) :
    strptimeDMYHM (strftimeDMYHM dt) = some (dt.1, dt.2 / 60 * 60) := by
  have hh : dt.2 / 3600 < 100 := by omega
  have hm : dt.2 % 3600 / 60 < 100 := by omega
  have e1 : strftimeDMYHM dt =
      strftimeDMY dt.1 ++
        (' ' :: (fmt2 (dt.2 / 3600) ++ (':' :: fmt2 (dt.2 % 3600 / 60)))) := by
    simp [strftimeDMYHM]
  have p1 := parseDMYparts_strftime dt.1 hd
    (' ' :: (fmt2 (dt.2 / 3600) ++ (':' :: fmt2 (dt.2 % 3600 / 60))))
    (by intro c hc; simp at hc; subst hc; decide)
  have s1 := spanDigits_append (fmt2 (dt.2 / 3600))
    (':' :: fmt2 (dt.2 % 3600 / 60)) (fmt2_all_digits hh)
    (by intro c hc; simp at hc; subst hc; decide)
  have s2 : spanDigits (fmt2 (dt.2 % 3600 / 60)) = (fmt2 (dt.2 % 3600 / 60), []) := by
    have := spanDigits_append (fmt2 (dt.2 % 3600 / 60)) [] (fmt2_all_digits hm)
      (by intro c hc; simp at hc)
    simpa using this
  obtain ⟨hy1, hy2, hm1, hm2, hd1, hd2⟩ := hd
  have hv : validDMY dt.1.year dt.1.month dt.1.day = true := by
    simp [validDMY]; omega
  have hhle : digitsVal (fmt2 (dt.2 / 3600)) ≤ 23 := by
    rw [digitsVal_fmt2 hh]; omega
  have hmle : digitsVal (fmt2 (dt.2 % 3600 / 60)) ≤ 59 := by
    rw [digitsVal_fmt2 hm]; omega
  rw [e1]
  simp only [strptimeDMYHM, p1, s1, s2, fmt2_length]
  norm_num [hhle, hmle, hv]
  rw [digitsVal_fmt2 hh, digitsVal_fmt2 hm]
  omega

theorem isWhitespace_eq_false_of_isDigit {c : Char} (h : c.isDigit = true) :
    c.isWhitespace = false := by
  by_contra hw
  rw [Bool.not_eq_false] at hw
  simp only [Char.isWhitespace, Bool.or_eq_true, decide_eq_true_eq] at hw
  rcases hw with ((h1 | h1) | h1) | h1 <;> subst h1 <;> exact absurd h (by decide)

theorem dropWhile_ws_eq_self {s : Str} (h : ∀ c ∈ s, c.isWhitespace = false) :
    s.dropWhile Char.isWhitespace = s := by
  cases s with
  | nil => rfl
  | cons c cs => simp [List.dropWhile_cons, h c (by simp)]

theorem strip_eq_self {s : Str} (h : ∀ c ∈ s, c.isWhitespace = false) :
    strip s = s := by
  unfold strip
  rw [dropWhile_ws_eq_self h,
    dropWhile_ws_eq_self (fun c hc => h c (List.mem_reverse.1 hc)),
    List.reverse_reverse]

theorem strip_of_digits {s : Str} (h : ∀ c ∈ s, c.isDigit = true) :
    strip s = s :=
  strip_eq_self fun c hc => isWhitespace_eq_false_of_isDigit (h c hc)

theorem digitsOnly_of_digits {s : Str} (h : ∀ c ∈ s, c.isDigit = true) :
    digitsOnly s = s :=
  List.filter_eq_self.mpr h

theorem filterMap_if_eq_map_filter {α β : Type} (p : α → Prop) [DecidablePred p]
    (g : α → β) (l : List α) :
    (l.filterMap fun a => if p a then some (g a) else none) =
      (l.filter fun a => decide (p a)).map g := by
  induction l with
  | nil => rfl
  | cons a l ih =>
      by_cases h : p a <;>
        simp [List.filterMap_cons, List.filter_cons, h, ih]

theorem relevance_of_tagSet_nil {tl : List Str} (h : tagSet tl = [])
    (n : Note) : relevance tl n = 0 := by
  simp [relevance, h]

theorem claim9_pairwise_transfer {tl : List Str} {l : List (Nat × Str × Note)}
    (hq : ∀ x ∈ l, x.1 = relevance tl x.2.2 ∧ x.2.1 = x.2.2.title)
    (hp : l.Pairwise scoredLe) :
    (l.map fun x => x.2.2).Pairwise fun a b =>
      relevance tl b < relevance tl a ∨
        (relevance tl a = relevance tl b ∧ a.title ≤ b.title) := by
  rw [List.pairwise_map]
  refine hp.imp_of_mem ?_
  intro a b ha hb hab
  obtain ⟨ha1, ha2⟩ := hq a ha
  obtain ⟨hb1, hb2⟩ := hq b hb
  rcases hab with h | ⟨h, ht⟩
  · exact Or.inl (by rw [← ha1, ← hb1]; exact h)
  · exact Or.inr ⟨by rw [← ha1, ← hb1]; exact h, by rw [← ha2, ← hb2]; exact ht⟩

theorem book_delete_sublist (b : Book) (name : Str) :
    (book_delete b name).2.Sublist b := by
  induction b with
  | nil => simp [book_delete]
  | cons kv rest ih =>
      unfold book_delete
      split
      · exact List.sublist_cons_self kv rest
      · exact ih.cons₂ kv

theorem reachable_pairwise {b : Book} (h : Reachable b) :
    b.Pairwise fun x y => casefold x.1 ≠ casefold y.1 := by
  induction h with
  | empty => exact List.Pairwise.nil
  | @add b r b' _ hok ih =>
      unfold add_record at hok
      split at hok
      · simp at hok
      · rename_i hfalse
        injection hok with hok
        subst hok
        rw [List.pairwise_append]
        refine ⟨ih, by simp, ?_⟩
        intro x hx y hy
        simp only [List.mem_singleton] at hy
        subst hy
        simp only [has_name, List.any_eq_true, beq_iff_eq, not_exists, not_and] at hfalse
        exact fun hcontra => hfalse x hx hcontra
  | del name _ ih => exact ih.sublist (book_delete_sublist _ _)

theorem decodeContact_encodeContact (c : SpecContact)
    (h : ∀ dt ∈ c.birthday, dt.1.Valid) :
    decodeContact (encodeContact c) =
      some { c with birthday := c.birthday.map fun dt => (dt.1, 0) } := by
  cases hb : c.birthday with
  | none => simp [decodeContact, encodeContact, hb]
  | some dt =>
      have hv := h dt (by simp [hb])
      simp [decodeContact, encodeContact, hb, strptime_strftime dt.1 hv]

theorem contactEquiv_norm (c : SpecContact) :
    contactEquiv c { c with birthday := c.birthday.map fun dt => (dt.1, 0) } := by
  cases hb : c.birthday <;> simp [contactEquiv, hb]

theorem decodeNote_encodeNote (n : SpecNote) (h1 : n.created_at.1.Valid)
    (h2 : n.created_at.2 < 86400) :
    decodeNote (encodeNote n) =
      some { n with created_at := (n.created_at.1, n.created_at.2 / 60 * 60) } := by
  simp [decodeNote, encodeNote, strptimeHM_strftimeHM n.created_at h1 h2]

theorem noteEquiv_norm (n : SpecNote) :
    noteEquiv n { n with created_at := (n.created_at.1, n.created_at.2 / 60 * 60) } := by
  refine ⟨rfl, rfl, rfl, ?_, rfl⟩
  simp

/-! ### Claim theorems -/

/-- C1: the claim describes `get_upcoming_birthdays` returning, for "today"
= 10.03.2025 and a contact "Ann" with birthday 15.03.1990, an entry with
congratulation date 17.03.2025.  On the code as written the call raises
instead: `Birthday` stores a `datetime`, and the loop compares it (after
`replace(year=...)`, which preserves the `datetime` class) against the
`date` value `today`, a mixed comparison that raises `TypeError`.  This
theorem evaluates the embedded code at that failing input: storing the
birthday succeeds, and the subsequent `get_upcoming_birthdays(7)` call
fails with `TypeError` instead of producing Ann's entry. -/
theorem claim1_upcoming_birthdays_type_error :
    record_add_birthday recAnn0 (pyStr "15.03.1990") ((⟨2025, 3, 10⟩ : Date), 43200) =
        .ok recAnn ∧
      get_upcoming_birthdays [(pyStr "Ann", recAnn)] ⟨2025, 3, 10⟩ 7 =
        .error .typeError := by
  decide

/-- C3: the claim says `Email(raw)` validates `raw` against the email
pattern, storing it on success and failing with `InvalidEmailFormat`
otherwise, and that `Record.add_email` appends the validated value.  In the
code `Email.__init__` takes no value parameter at all, so the call
`Email(email)` inside `add_email` raises `TypeError` for every argument —
matching or not — and nothing is ever validated or appended. -/
theorem claim3_add_email_type_error :
    ∀ (r : Record) (email : Str), record_add_email r email = .error .typeError := by
  intro r email
  simp [record_add_email, emailCall, emailInitNumArgs, Except.map]

/-- C4: the claim says `Address(raw)` fails with `EmptyAddress` on a blank
value and otherwise stores the trimmed value.  The code's
`Address.__init__` stores the raw value unchanged: a blank address is
accepted as-is, and surrounding whitespace is not removed (the intended
check-and-trim code sits unreachable after a `return` inside
`Notebook.sort_by_tags`). -/
theorem claim4_address_stores_raw_value :
    addressInit (pyStr "   ") = .ok (pyStr "   ") ∧
      record_add_address recAnn0 (pyStr "  Kyiv  ") =
        .ok { recAnn0 with addresses := [pyStr "  Kyiv  "] } ∧
      strip (pyStr "  Kyiv  ") ≠ pyStr "  Kyiv  " := by
  decide

/-- C6: the claim says `Birthday(raw)` fails with `InvalidDateFormat` on an
unparseable value and with `FutureDate` on a future date.  `entities.py`
never imports those exception classes, so both failure paths raise
`NameError` when the unbound class name is evaluated (and the `NameError`
escaping the parse-failure handler is not caught by `except ValueError`);
only the success path works. -/
theorem claim6_birthday_name_error :
    birthdayInit (pyStr "01.01.2999") now2026 =
        .error (.nameError (pyStr "FutureDateError")) ∧
      birthdayInit (pyStr "31-12-1990") now2026 =
        .error (.nameError (pyStr "InvalidDateFormatError")) ∧
      birthdayInit (pyStr "15.03.1990") now2026 = .ok (.datetime ⟨1990, 3, 15⟩ 0) := by
  decide

/-- C10: adding the phone "380501234567" to a record succeeds and stores
the normalized value "0501234567" (the `Phone` constructor drops the
country-code characters), but `find_phone` with the very same argument
reduces it to digits only without that stripping, so the lookup misses and
`remove_phone` reports `false`: the add/lookup round-trip fails for
"380"-prefixed inputs. -/
theorem claim10_add_find_phone_mismatch :
    record_add_phone recBob (pyStr "380501234567") = .ok recBob380 ∧
      recBob380.phones = [pyStr "0501234567"] ∧
      record_find_phone recBob380 (pyStr "380501234567") = none ∧
      record_remove_phone recBob380 (pyStr "380501234567") = (false, recBob380) := by
  decide

/-- C5: `Phone(raw)` strips whitespace and removes all non-digit characters;
a digit string that starts with "380" and has more than 10 digits loses its
leading country-code characters (a 12-digit "380…" number is cut to its
last 10 digits); construction succeeds storing the normalized value exactly
when that value has 10 digits, and otherwise fails with the `ValueError`
reporting the digit count and value; and a 10-digit national number
(leading trunk "0") yields the identical stored value with or without the
"380" country code in front. -/
theorem claim5_phone_normalization :
    ∀ raw : Str,
      (phoneInit raw = .ok (clean_and_normalize_phone raw) ↔
        (clean_and_normalize_phone raw).length = 10) ∧
      ((clean_and_normalize_phone raw).length ≠ 10 →
        phoneInit raw =
          .error (.valueError (phoneLengthMsg (clean_and_normalize_phone raw)))) ∧
      ((digitsOnly (strip raw)).take 3 = pyStr "380" →
        (digitsOnly (strip raw)).length = 12 →
        clean_and_normalize_phone raw = (digitsOnly (strip raw)).drop 2 ∧
          (clean_and_normalize_phone raw).length = 10) ∧
      (∀ t : Str, (∀ c ∈ t, c.isDigit = true) → t.length = 9 →
        phoneInit (pyStr "380" ++ t) = .ok ('0' :: t) ∧
          phoneInit ('0' :: t) = .ok ('0' :: t)) := by
  intro raw
  refine ⟨?_, ?_, ?_, ?_⟩
  · by_cases h : (clean_and_normalize_phone raw).length = 10 <;>
      simp [phoneInit, h]
  · intro h
    simp [phoneInit, h]
  · intro h1 h2
    have hc : clean_and_normalize_phone raw = (digitsOnly (strip raw)).drop 2 := by
      unfold clean_and_normalize_phone
      rw [if_pos ⟨h1, by omega⟩]
    refine ⟨hc, ?_⟩
    rw [hc, List.length_drop, h2]
  · intro t ht hlen
    have h380 : ∀ c ∈ pyStr "380", c.isDigit = true := by decide
    have hall : ∀ c ∈ pyStr "380" ++ t, c.isDigit = true := by
      intro c hc
      rcases List.mem_append.1 hc with hc | hc
      · exact h380 c hc
      · exact ht c hc
    have hall0 : ∀ c ∈ ('0' :: t), c.isDigit = true := by
      intro c hc
      rcases List.mem_cons.1 hc with hc | hc
      · subst hc; decide
      · exact ht c hc
    have hlenA : (pyStr "380" ++ t).length = 12 := by
      rw [List.length_append, hlen]
      rfl
    have hclean1 : clean_and_normalize_phone (pyStr "380" ++ t) = '0' :: t := by
      unfold clean_and_normalize_phone
      rw [strip_of_digits hall, digitsOnly_of_digits hall]
      have htake : (pyStr "380" ++ t).take 3 = pyStr "380" := by
        have e : (3 : Nat) = (pyStr "380").length := rfl
        rw [e, List.take_left]
      rw [if_pos ⟨htake, by omega⟩]
      rfl
    have hclean2 : clean_and_normalize_phone ('0' :: t) = '0' :: t := by
      unfold clean_and_normalize_phone
      rw [strip_of_digits hall0, digitsOnly_of_digits hall0]
      rw [if_neg]
      rintro ⟨heq, -⟩
      have e : ('0' :: t).take 3 = '0' :: t.take 2 := rfl
      rw [e] at heq
      have e2 : pyStr "380" = '3' :: '8' :: '0' :: [] := rfl
      rw [e2] at heq
      injection heq with h1 h2
      exact absurd h1 (by decide)
    constructor
    · unfold phoneInit
      rw [hclean1]
      have : ('0' :: t).length = 10 := by simp [hlen]
      rw [if_pos this]
    · unfold phoneInit
      rw [hclean2]
      have : ('0' :: t).length = 10 := by simp [hlen]
      rw [if_pos this]

/-- Witness for C5: the international form "380501234567" and the national
form "0501234567" both construct successfully and store the same 10-digit
value. -/
theorem claim5_phone_normalization_witness :
    phoneInit (pyStr "380501234567") = .ok (pyStr "0501234567") ∧
      phoneInit (pyStr "0501234567") = .ok (pyStr "0501234567") := by
  have h := (claim5_phone_normalization (pyStr "380501234567")).2.2.2
    (pyStr "501234567") (by decide) (by decide)
  exact ⟨h.1, h.2⟩

/-- C7: every address book reachable from the empty book via `add_record`
and `delete` has pairwise non-casefold-equal keys; `add_record` fails with
the duplicate-name error exactly when an existing key casefolds equal to
the new record's name, and otherwise appends the record keyed by its
original-case name. -/
theorem claim7_casefold_unique_keys :
    ∀ b : Book, Reachable b →
      b.Pairwise (fun x y => casefold x.1 ≠ casefold y.1) ∧
      ∀ r : Record,
        ((∃ kv ∈ b, casefold kv.1 = casefold r.name) →
          add_record b r = .error (.valueError (duplicateMsg r.name))) ∧
        ((¬ ∃ kv ∈ b, casefold kv.1 = casefold r.name) →
          add_record b r = .ok (b ++ [(r.name, r)])) := by
  intro b hb
  refine ⟨reachable_pairwise hb, ?_⟩
  intro r
  constructor
  · intro hex
    have htrue : has_name b r.name = true := by
      simp only [has_name, List.any_eq_true, beq_iff_eq]
      exact hex
    unfold add_record
    rw [if_pos htrue]
  · intro hnex
    have hfalse : ¬ has_name b r.name = true := by
      simpa only [has_name, List.any_eq_true, beq_iff_eq] using hnex
    unfold add_record
    rw [if_neg hfalse]

/-- Witness for C7: the one-contact book `[("John", …)]` is reachable, its
keys are pairwise casefold-distinct, and adding a record named "JOHN"
(differing only by case) fails with the duplicate error. -/
theorem claim7_casefold_unique_keys_witness :
    bookJohn.Pairwise (fun x y => casefold x.1 ≠ casefold y.1) ∧
      add_record bookJohn recJOHN = .error (.valueError (duplicateMsg (pyStr "JOHN"))) := by
  have hreach : Reachable bookJohn :=
    @Reachable.add [] recJohn bookJohn Reachable.empty (by decide)
  have h := claim7_casefold_unique_keys bookJohn hreach
  exact ⟨h.1, (h.2 recJOHN).1 ⟨(pyStr "John", recJohn), by decide⟩⟩

/-- C8: for a phone argument whose digits-only form matches none of the
record's stored phone values, `find_phone` returns `none`, and
`remove_phone` / `edit_phone` return `false` without raising and leave the
record unchanged (`edit_phone` does not even validate its second
argument in that case). -/
theorem claim8_absent_phone_degrades :
    ∀ (r : Record) (phone : Str), digitsOnly phone ∉ r.phones →
      record_find_phone r phone = none ∧
      record_remove_phone r phone = (false, r) ∧
      ∀ new_phone : Str, record_edit_phone r phone new_phone = .ok (false, r) := by
  intro r phone h
  have hfind : record_find_phone r phone = none := by
    simp only [record_find_phone, List.find?_eq_none, beq_iff_eq]
    exact fun v hv heq => h (heq ▸ hv)
  refine ⟨hfind, ?_, ?_⟩
  · simp [record_remove_phone, hfind]
  · intro np
    simp [record_edit_phone, hfind]

/-- Witness for C8: looking up, removing or editing the absent phone
"067-111-22-33" on Carol's record (which stores only "0501234567")
returns `none` / `false` without an exception. -/
theorem claim8_absent_phone_degrades_witness :
    record_find_phone recCarol (pyStr "067-111-22-33") = none ∧
      record_remove_phone recCarol (pyStr "067-111-22-33") = (false, recCarol) ∧
      record_edit_phone recCarol (pyStr "067-111-22-33") (pyStr "0999999999") =
        .ok (false, recCarol) := by
  have h := claim8_absent_phone_degrades recCarol (pyStr "067-111-22-33") (by decide)
  exact ⟨h.1, h.2.1, h.2.2 _⟩

/-- C2: decoding the encoded persisted form of an address book reproduces
an equivalent list of contacts (same names, phones, emails and addresses,
birthday dates equal ignoring time-of-day), and likewise decoding an
encoded notebook reproduces equivalent notes (same title and content,
creation time to the minute, tag sets equal regardless of order).  The
encoder/decoder pair is modelled from the spec, since `to_dict`/`from_dict`
are missing from the sources. -/
theorem claim2_persistence_round_trip :
    (∀ book : List SpecContact,
        (∀ c ∈ book, ∀ dt ∈ c.birthday, dt.1.Valid) →
        ∃ book', decodeContacts (encodeContacts book) = some book' ∧
          List.Forall₂ contactEquiv book book') ∧
    (∀ notes : List SpecNote,
        (∀ n ∈ notes, n.created_at.1.Valid ∧ n.created_at.2 < 86400) →
        ∃ notes', decodeNotes (encodeNotes notes) = some notes' ∧
          List.Forall₂ noteEquiv notes notes') := by
  constructor
  · intro book h
    induction book with
    | nil => exact ⟨[], rfl, List.Forall₂.nil⟩
    | cons c cs ih =>
        obtain ⟨cs', hdec, hequiv⟩ := ih fun x hx => h x (List.mem_cons_of_mem _ hx)
        have hc := decodeContact_encodeContact c (h c (List.mem_cons_self _ _))
        refine ⟨_ :: cs', ?_, List.Forall₂.cons (contactEquiv_norm c) hequiv⟩
        simp only [decodeContacts, encodeContacts, List.map_cons] at hdec ⊢
        rw [List.mapM_cons]
        have hdec' : List.mapM.loop decodeContact (List.map encodeContact cs) [] =
            some cs' := hdec
        simp [hc, hdec']
  · intro notes h
    induction notes with
    | nil => exact ⟨[], rfl, List.Forall₂.nil⟩
    | cons n ns ih =>
        obtain ⟨ns', hdec, hequiv⟩ := ih fun x hx => h x (List.mem_cons_of_mem _ hx)
        obtain ⟨h1, h2⟩ := h n (List.mem_cons_self _ _)
        have hn := decodeNote_encodeNote n h1 h2
        refine ⟨_ :: ns', ?_, List.Forall₂.cons (noteEquiv_norm n) hequiv⟩
        simp only [decodeNotes, encodeNotes, List.map_cons] at hdec ⊢
        rw [List.mapM_cons]
        have hdec' : List.mapM.loop decodeNote (List.map encodeNote ns) [] =
            some ns' := hdec
        simp [hn, hdec']

/-- Witness for C2: the round trip evaluated on a one-contact book (Ann,
birthday 15.03.1990) and a one-note notebook (a note created at
09:30:59, persisted to minute precision). -/
theorem claim2_persistence_round_trip_witness :
    (∀ c ∈ [specAnn], ∀ dt ∈ c.birthday, dt.1.Valid) ∧
      (∃ book', decodeContacts (encodeContacts [specAnn]) = some book' ∧
        List.Forall₂ contactEquiv [specAnn] book') ∧
      (∃ notes', decodeNotes (encodeNotes [specNoteShopping]) = some notes' ∧
        List.Forall₂ noteEquiv [specNoteShopping] notes') :=
  ⟨by decide,
   claim2_persistence_round_trip.1 [specAnn] (by decide),
   claim2_persistence_round_trip.2 [specNoteShopping] (by decide)⟩

/-- C9: `sort_by_tags` keeps exactly the notes sharing at least one
normalized tag with the query (relevance positive), and returns them
sorted by descending relevance with ties broken by ascending
(case-sensitive) title; on the spec's example — A tagged {x, y}, B tagged
{x}, C untagged — the query ["x", "y"] returns [A, B] and excludes C. -/
theorem claim9_sort_by_tags_ranking :
    (∀ (notes : List Note) (tag_list : List Str),
        ((sort_by_tags notes tag_list).length =
          (notes.filter fun n => decide (0 < relevance tag_list n)).length) ∧
        (∀ n : Note, n ∈ sort_by_tags notes tag_list ↔
          n ∈ notes ∧ 0 < relevance tag_list n) ∧
        (sort_by_tags notes tag_list).Pairwise (fun a b =>
          relevance tag_list b < relevance tag_list a ∨
            (relevance tag_list a = relevance tag_list b ∧ a.title ≤ b.title))) ∧
    sort_by_tags [noteA, noteB, noteC] [pyStr "x", pyStr "y"] = [noteA, noteB] := by
  constructor
  · intro notes tl
    by_cases h0 : tl = []
    · subst h0
      have hrel := relevance_of_tagSet_nil (show tagSet [] = [] from rfl)
      refine ⟨?_, ?_, ?_⟩
      · simp [sort_by_tags, hrel]
      · intro n; simp [sort_by_tags, hrel]
      · simp [sort_by_tags]
    · by_cases h1 : tagSet tl = []
      · have hrel := relevance_of_tagSet_nil h1
        refine ⟨?_, ?_, ?_⟩
        · simp [sort_by_tags, h0, h1, hrel]
        · intro n; simp [sort_by_tags, h0, h1, hrel]
        · simp [sort_by_tags, h0, h1]
      · have hmain : sort_by_tags notes tl =
            (((notes.filter fun n => decide (0 < relevance tl n)).map
                (fun n => (relevance tl n, n.title, n))).insertionSort scoredLe).map
              (fun x => x.2.2) := by
          simp only [sort_by_tags, if_neg h0, if_neg h1]
          rw [filterMap_if_eq_map_filter (fun n => 0 < relevance tl n)
            (fun n => (relevance tl n, n.title, n)) notes]
        refine ⟨?_, ?_, ?_⟩
        · rw [hmain]
          simp [(List.perm_insertionSort scoredLe _).length_eq]
        · intro n
          rw [hmain]
          simp only [List.mem_map, List.mem_insertionSort, List.mem_filter,
            decide_eq_true_eq]
          constructor
          · rintro ⟨x, ⟨m, hm, rfl⟩, rfl⟩
            exact hm
          · intro hn
            exact ⟨(relevance tl n, n.title, n), ⟨n, hn, rfl⟩, rfl⟩
        · rw [hmain]
          apply claim9_pairwise_transfer
          · intro x hx
            rw [List.mem_insertionSort] at hx
            obtain ⟨m, _, rfl⟩ := List.mem_map.1 hx
            exact ⟨rfl, rfl⟩
          · exact List.sorted_insertionSort scoredLe _
  · decide

end Assistant
